import Mathlib

/-!
Shallow embedding of the polygon-placement engine in `src/assignment2.py`
(repository csc1002).  Coordinates are modelled as exact real numbers; the
Python float literals `3.5` and `1e-10` are modelled as the rationals they
denote (`7/2` and `1/10^10`).  Boolean-returning Python functions whose
conditions compare real numbers become `Prop`-valued definitions; the
control flow (early `return True` inside loops, `if`/`else`) is translated
to disjunctions, existentials over the traversed lists, and `if then else`
on propositions.
-/

namespace Assignment2

open Classical

/-- A point `(x, y)`, as the Python 2-tuples used throughout the program. -/
abbrev Point : Type := ℝ × ℝ

/-- A registry entry `(position, coords, color)` as appended to `g_shapes`. -/
abbrev ShapeEntry : Type := Point × List Point × String

/-- `pt_sub` from `is_shape_overlapped_any`: componentwise difference. -/
def pt_sub (p1 p2 : Point) : Point := (p1.1 - p2.1, p1.2 - p2.2)

/-- `pt_cross` from `is_shape_overlapped_any`: 2-D cross product. -/
def pt_cross (p1 p2 : Point) : ℝ := p1.1 * p2.2 - p1.2 * p2.1

/-- `pt_cross_with_points(p, a, b)`: cross product of `a - p` and `b - p`. -/
def pt_cross_with_points (p a b : Point) : ℝ := pt_cross (pt_sub a p) (pt_sub b p)

/-- `sgn` from `is_shape_overlapped_any`: `1` if positive, `-1` if negative,
`0` otherwise. -/
noncomputable def sgn (x : ℝ) : ℤ := if x > 0 then 1 else if x < 0 then -1 else 0

/-- `inter1(a, b, c, d, buffer)`: the source first swaps `a,b` (resp. `c,d`)
when out of order — i.e. it takes `min`/`max` of each pair — and then tests
`max(a - buffer, c - buffer) <= min(b + buffer, d + buffer)`. -/
def inter1 (a b c d buffer : ℝ) : Prop :=
  max (min a b - buffer) (min c d - buffer) ≤ min (max a b + buffer) (max c d + buffer)

/-- The Python float literal `1e-10`. -/
noncomputable def eps : ℝ := 1 / 10 ^ 10

/-- `expand_segment(start, end, buffer)`: extend the segment outward by
`buffer` along its own direction; a near-zero-length segment is turned into
the pair `(start - (buffer,buffer), end + (buffer,buffer))` instead of
dividing by its length. -/
noncomputable def expand_segment (start finish : Point) (buffer : ℝ) : Point × Point :=
  let dx := finish.1 - start.1
  let dy := finish.2 - start.2
  let length := Real.sqrt (dx ^ 2 + dy ^ 2)
  if length < eps then
    ((start.1 - buffer, start.2 - buffer), (finish.1 + buffer, finish.2 + buffer))
  else
    ((start.1 - dx / length * buffer, start.2 - dy / length * buffer),
     (finish.1 + dx / length * buffer, finish.2 + dy / length * buffer))

/-- `check_inter(a, b, c, d, buffer)`: expand both segments, branch on the
two orientation tests the source evaluates (`pt_cross_with_points(c_exp,
a_exp, d_exp)` and `pt_cross_with_points(c_exp, b_exp, d_exp)` both zero);
in the colinear branch return the conjunction of the interval tests on the
original coordinates, otherwise the two sign-disagreement tests on the
expanded points. -/
noncomputable def check_inter (a b c d : Point) (buffer : ℝ) : Prop :=
  let ab := expand_segment a b buffer
  let cd := expand_segment c d buffer
  if pt_cross_with_points cd.1 ab.1 cd.2 = 0 ∧ pt_cross_with_points cd.1 ab.2 cd.2 = 0 then
    inter1 a.1 b.1 c.1 d.1 buffer ∧ inter1 a.2 b.2 c.2 d.2 buffer
  else
    sgn (pt_cross_with_points ab.1 ab.2 cd.1) ≠ sgn (pt_cross_with_points ab.1 ab.2 cd.2) ∧
    sgn (pt_cross_with_points cd.1 cd.2 ab.1) ≠ sgn (pt_cross_with_points cd.1 cd.2 ab.2)

/-- The loop body condition of `point_in_polygon` at index `i`: the edge
from `polygon[(i-1) % n]` to `polygon[i]` straddles the horizontal through
`y` and the ray test passes.  Python's `(i - 1) % n` on `0 ≤ i < n` equals
`(i + n - 1) % n` on naturals. -/
def pip_cond (point : Point) (polygon : List Point) (i : ℕ) : Prop :=
  let n := polygon.length
  let pi := polygon.getD i (0, 0)
  let pj := polygon.getD ((i + n - 1) % n) (0, 0)
  (¬ ((pi.2 > point.2) ↔ (pj.2 > point.2))) ∧
    point.1 < (pj.1 - pi.1) * (point.2 - pi.2) / (pj.2 - pi.2 + eps) + pi.1

/-- `point_in_polygon(point, polygon)`: even–odd ray casting; the source
folds over `i in range(n)` toggling `inside` whenever `pip_cond` holds. -/
noncomputable def point_in_polygon (point : Point) (polygon : List Point) : Prop :=
  (List.range polygon.length).foldl
    (fun inside i => if pip_cond point polygon i then ¬ inside else inside) False

/-- Python's `min` over a (nonempty) list; `0` on the empty list, which the
source never passes. -/
noncomputable def listMin : List ℝ → ℝ
  | [] => 0
  | x :: xs => xs.foldl min x

/-- Python's `max` over a (nonempty) list; `0` on the empty list. -/
noncomputable def listMax : List ℝ → ℝ
  | [] => 0
  | x :: xs => xs.foldl max x

/-- The 4-tuple `(min_x - buffer, max_x + buffer, min_y - buffer, max_y + buffer)`
returned by `get_bounding_box`. -/
structure Box where
  minX : ℝ
  maxX : ℝ
  minY : ℝ
  maxY : ℝ

/-- `get_bounding_box(coords, buffer)`. -/
noncomputable def get_bounding_box (coords : List Point) (buffer : ℝ) : Box :=
  ⟨listMin (coords.map Prod.fst) - buffer, listMax (coords.map Prod.fst) + buffer,
   listMin (coords.map Prod.snd) - buffer, listMax (coords.map Prod.snd) + buffer⟩

/-- `distance(p1, p2)`: Euclidean distance. -/
noncomputable def distance (p1 p2 : Point) : ℝ :=
  Real.sqrt ((p1.1 - p2.1) ^ 2 + (p1.2 - p2.2) ^ 2)

/-- `point_to_segment_distance(p, seg_start, seg_end)`: distance from `p` to
the segment, with the near-zero-length guard of the source. -/
noncomputable def point_to_segment_distance (p seg_start seg_end : Point) : ℝ :=
  let v := pt_sub seg_end seg_start
  let w := pt_sub p seg_start
  let length_squared := v.1 ^ 2 + v.2 ^ 2
  if length_squared < eps then distance p seg_start
  else
    let t := max 0 (min 1 ((w.1 * v.1 + w.2 * v.2) / length_squared))
    distance p (seg_start.1 + t * v.1, seg_start.2 + t * v.2)

/-- `[(x * stretch + pos[0], y * stretch + pos[1]) for x, y in coords]`. -/
def stretch_coords (pos : Point) (coords : List Point) (stretch : ℝ) : List Point :=
  coords.map fun q => (q.1 * stretch + pos.1, q.2 * stretch + pos.2)

/-- `[(cs[i], cs[(i+1) % len(cs)]) for i in range(len(cs))]`. -/
def segments_of (cs : List Point) : List (Point × Point) :=
  (List.range cs.length).map fun i => (cs.getD i (0, 0), cs.getD ((i + 1) % cs.length) (0, 0))

/-- The centroid `(sum of xs / n, sum of ys / n)` computed inline by
`is_shape_overlapped_any` for both the candidate and each existing shape. -/
noncomputable def centroid (cs : List Point) : Point :=
  ((cs.map Prod.fst).sum / cs.length, (cs.map Prod.snd).sum / cs.length)

/-- The bounding-box gate of the loop: `not (new_box[1] < exist_box[0] or
exist_box[1] < new_box[0] or new_box[3] < exist_box[2] or exist_box[3] <
new_box[2])`. -/
def boxes_not_disjoint (nb eb : Box) : Prop :=
  ¬ (nb.maxX < eb.minX ∨ eb.maxX < nb.minX ∨ nb.maxY < eb.minY ∨ eb.maxY < nb.minY)

/-- One iteration of the `for existing_pos, existing_coords, _ in g_shapes`
loop of `is_shape_overlapped_any`: `True` is returned for this entry iff
(boxes overlap and one of the vertex-proximity / segment-proximity /
edge-intersection tests fires) or one centroid lies in the other polygon.
All inner buffers are the source's fixed `3.5`. -/
noncomputable def overlapped_pair (pos : Point) (coords : List Point) (stretch : ℝ)
    (entry : ShapeEntry) : Prop :=
  let new_coords := stretch_coords pos coords stretch
  let new_segments := segments_of new_coords
  let cent := centroid new_coords
  let new_box := get_bounding_box new_coords (7/2)
  let exist_coords := stretch_coords entry.1 entry.2.1 stretch
  let exist_segments := segments_of exist_coords
  let exist_box := get_bounding_box exist_coords (7/2)
  (boxes_not_disjoint new_box exist_box ∧
    ((∃ nv ∈ new_coords,
        (∃ ev ∈ exist_coords, distance nv ev < 7/2) ∨
        (∃ sg ∈ exist_segments, point_to_segment_distance nv sg.1 sg.2 < 7/2)) ∨
     (∃ ev ∈ exist_coords, ∃ sg ∈ new_segments,
        point_to_segment_distance ev sg.1 sg.2 < 7/2) ∨
     (∃ s1 ∈ new_segments, ∃ s2 ∈ exist_segments,
        check_inter s1.1 s1.2 s2.1 s2.2 (7/2)))) ∨
  point_in_polygon cent exist_coords ∨
  point_in_polygon (centroid exist_coords) new_coords

/-- `is_shape_overlapped_any(pos, coords, stretch)` with the global
`g_shapes` made an explicit argument: the loop returns `True` as soon as
some entry triggers `overlapped_pair`, `False` after the loop. -/
noncomputable def is_shape_overlapped_any (pos : Point) (coords : List Point) (stretch : ℝ) :
    List ShapeEntry → Prop
  | [] => False
  | e :: rest =>
      overlapped_pair pos coords stretch e ∨ is_shape_overlapped_any pos coords stretch rest

/-- `create_shape(coords, color, stretch_factor)` returns `(coords, color)`. -/
def create_shape (coords : List Point) (color : String) (_stretch_factor : ℝ) :
    List Point × String :=
  (coords, color)

/-! ### Basic lemmas about the overlap oracle -/

/-- The early-return loop of `is_shape_overlapped_any` computes the
existential over the registry. -/
lemma overlapped_any_iff_exists (pos : Point) (coords : List Point) (stretch : ℝ)
    (l : List ShapeEntry) :
    is_shape_overlapped_any pos coords stretch l ↔
      ∃ e ∈ l, overlapped_pair pos coords stretch e := by
  induction l with
  | nil => simp [is_shape_overlapped_any]
  | cons e rest ih => simp [is_shape_overlapped_any, ih]

/-- The oracle on a one-entry registry is the per-entry verdict. -/
lemma overlapped_any_singleton (pos : Point) (coords : List Point) (stretch : ℝ)
    (e : ShapeEntry) :
    is_shape_overlapped_any pos coords stretch [e] ↔
      overlapped_pair pos coords stretch e := by
  simp [is_shape_overlapped_any]

lemma overlapped_pair_of_containment (pos : Point) (coords : List Point) (stretch : ℝ)
    (entry : ShapeEntry)
    (h : point_in_polygon (centroid (stretch_coords pos coords stretch))
           (stretch_coords entry.1 entry.2.1 stretch) ∨
         point_in_polygon (centroid (stretch_coords entry.1 entry.2.1 stretch))
           (stretch_coords pos coords stretch)) :
    overlapped_pair pos coords stretch entry := by
  unfold overlapped_pair
  exact Or.inr h

/-! ### Symmetry of the geometric predicates -/

lemma pt_cross_with_points_def (p a b : Point) :
    pt_cross_with_points p a b = (a.1 - p.1) * (b.2 - p.2) - (a.2 - p.2) * (b.1 - p.1) := rfl

/-- If `x` and `y` are both parallel to a nonzero vector `w`, they are
parallel to each other. -/
lemma cross_transfer {w1 w2 x1 x2 y1 y2 : ℝ} (hw : ¬ (w1 = 0 ∧ w2 = 0))
    (hx : x1 * w2 - x2 * w1 = 0) (hy : y1 * w2 - y2 * w1 = 0) :
    x1 * y2 - x2 * y1 = 0 := by
  by_cases hw1 : w1 = 0
  · have hw2 : w2 ≠ 0 := fun h => hw ⟨hw1, h⟩
    have h2 : (x1 * y2 - x2 * y1) * w2 = 0 := by linear_combination y2 * hx - x2 * hy
    exact (mul_eq_zero.1 h2).resolve_right hw2
  · have h1 : (x1 * y2 - x2 * y1) * w1 = 0 := by linear_combination y1 * hx - x1 * hy
    exact (mul_eq_zero.1 h1).resolve_right hw1

/-- One direction of the symmetry of the colinearity branch condition of
`check_inter`: if `a` and `b` lie on the line through the distinct points
`c` and `d`, then `c` and `d` lie on the line through `a` and `b`. -/
lemma colinear_cond_swap {a b c d : Point} (hcd : c ≠ d)
    (h : pt_cross_with_points c a d = 0 ∧ pt_cross_with_points c b d = 0) :
    pt_cross_with_points a c b = 0 ∧ pt_cross_with_points a d b = 0 := by
  obtain ⟨h1, h2⟩ := h
  rw [pt_cross_with_points_def] at h1 h2
  have hw : ¬ (d.1 - c.1 = 0 ∧ d.2 - c.2 = 0) := by
    rintro ⟨u, v⟩
    exact hcd (Prod.ext (by linarith) (by linarith)).symm
  have hxy : (a.1 - c.1) * (b.2 - c.2) - (a.2 - c.2) * (b.1 - c.1) = 0 :=
    cross_transfer hw (by linear_combination h1) (by linear_combination h2)
  constructor
  · rw [pt_cross_with_points_def]; linear_combination -hxy
  · rw [pt_cross_with_points_def]; linear_combination h1 - h2 - hxy

lemma eps_pos : (0 : ℝ) < eps := by norm_num [eps]

/-- With `2 * buffer` at least the degeneracy threshold, the two endpoints
produced by `expand_segment` are always distinct. -/
lemma expand_segment_ne (s e : Point) (buffer : ℝ) (hbuf : eps ≤ 2 * buffer) :
    (expand_segment s e buffer).1 ≠ (expand_segment s e buffer).2 := by
  unfold expand_segment
  set dx := e.1 - s.1 with hdx
  set dy := e.2 - s.2 with hdy
  set L := Real.sqrt (dx ^ 2 + dy ^ 2) with hL
  have hL0 : 0 ≤ L := Real.sqrt_nonneg _
  by_cases hshort : L < eps
  · simp only [if_pos hshort]
    intro hcontra
    have h1 : s.1 - buffer = e.1 + buffer := congrArg Prod.fst hcontra
    have habs : |dx| ≤ L := by
      rw [hL]
      calc |dx| = Real.sqrt (dx ^ 2) := (Real.sqrt_sq_eq_abs dx).symm
        _ ≤ Real.sqrt (dx ^ 2 + dy ^ 2) :=
            Real.sqrt_le_sqrt (le_add_of_nonneg_right (sq_nonneg dy))
    have : |dx| = 2 * buffer := by
      have : dx = -(2 * buffer) := by rw [hdx]; linarith
      rw [this, abs_neg, abs_of_nonneg (by linarith [eps_pos])]
    linarith [abs_nonneg dx]
  · simp only [if_neg hshort]
    push_neg at hshort
    have hLpos : 0 < L := lt_of_lt_of_le eps_pos hshort
    intro hcontra
    have h1 : s.1 - dx / L * buffer = e.1 + dx / L * buffer := congrArg Prod.fst hcontra
    have h2 : s.2 - dy / L * buffer = e.2 + dy / L * buffer := congrArg Prod.snd hcontra
    have hbpos : 0 < buffer := by linarith [eps_pos]
    have hx0 : dx = 0 := by
      have hmul : dx * (L + 2 * buffer) = 0 := by
        have : dx + 2 * (dx / L) * buffer = 0 := by rw [hdx]; linarith
        have hL' : (dx + 2 * (dx / L) * buffer) * L = 0 := by rw [this]; ring
        rw [add_mul] at hL'
        calc dx * (L + 2 * buffer) = dx * L + 2 * (dx / L) * buffer * L := by
              field_simp
              ring
          _ = 0 := hL'
      rcases mul_eq_zero.1 hmul with h | h
      · exact h
      · linarith
    have hy0 : dy = 0 := by
      have hmul : dy * (L + 2 * buffer) = 0 := by
        have : dy + 2 * (dy / L) * buffer = 0 := by rw [hdy]; linarith
        have hL' : (dy + 2 * (dy / L) * buffer) * L = 0 := by rw [this]; ring
        rw [add_mul] at hL'
        calc dy * (L + 2 * buffer) = dy * L + 2 * (dy / L) * buffer * L := by
              field_simp
              ring
          _ = 0 := hL'
      rcases mul_eq_zero.1 hmul with h | h
      · exact h
      · linarith
    have : L = 0 := by rw [hL, hx0, hy0]; simp
    linarith

/-- The interval-overlap test `inter1` is symmetric in its two intervals. -/
lemma inter1_comm (a b c d buffer : ℝ) : inter1 a b c d buffer ↔ inter1 c d a b buffer := by
  unfold inter1
  rw [max_comm (min a b - buffer), min_comm (max a b + buffer)]

/-- `check_inter` is symmetric in its two segments whenever the buffer is
large enough that expanded segments cannot degenerate (the program always
uses `buffer = 3.5`). -/
lemma check_inter_comm (a b c d : Point) (buffer : ℝ) (hbuf : eps ≤ 2 * buffer) :
    check_inter a b c d buffer ↔ check_inter c d a b buffer := by
  have hab := expand_segment_ne a b buffer hbuf
  have hcd := expand_segment_ne c d buffer hbuf
  unfold check_inter
  set AB := expand_segment a b buffer with hAB
  set CD := expand_segment c d buffer with hCD
  have hcond : (pt_cross_with_points CD.1 AB.1 CD.2 = 0 ∧
      pt_cross_with_points CD.1 AB.2 CD.2 = 0) ↔
      (pt_cross_with_points AB.1 CD.1 AB.2 = 0 ∧
      pt_cross_with_points AB.1 CD.2 AB.2 = 0) :=
    ⟨colinear_cond_swap hcd, colinear_cond_swap hab⟩
  by_cases h : pt_cross_with_points CD.1 AB.1 CD.2 = 0 ∧
      pt_cross_with_points CD.1 AB.2 CD.2 = 0
  · rw [if_pos h, if_pos (hcond.1 h)]
    exact and_congr (inter1_comm a.1 b.1 c.1 d.1 buffer) (inter1_comm a.2 b.2 c.2 d.2 buffer)
  · rw [if_neg h, if_neg (fun hc => h (hcond.2 hc))]
    exact and_comm

/-- `distance` is symmetric. -/
lemma distance_comm (p q : Point) : distance p q = distance q p := by
  unfold distance
  congr 1
  ring

/-- The box-disjointness gate of the oracle loop is symmetric. -/
lemma boxes_not_disjoint_comm (nb eb : Box) :
    boxes_not_disjoint nb eb ↔ boxes_not_disjoint eb nb := by
  unfold boxes_not_disjoint
  tauto

/-- One direction of the symmetry of the gated proximity/intersection
checks of the oracle loop. -/
lemma proximity_checks_swap (NA NB : List Point)
    (h : (∃ nv ∈ NA, (∃ ev ∈ NB, distance nv ev < 7/2) ∨
            (∃ sg ∈ segments_of NB, point_to_segment_distance nv sg.1 sg.2 < 7/2)) ∨
         (∃ ev ∈ NB, ∃ sg ∈ segments_of NA, point_to_segment_distance ev sg.1 sg.2 < 7/2) ∨
         (∃ s1 ∈ segments_of NA, ∃ s2 ∈ segments_of NB,
            check_inter s1.1 s1.2 s2.1 s2.2 (7/2))) :
    (∃ nv ∈ NB, (∃ ev ∈ NA, distance nv ev < 7/2) ∨
       (∃ sg ∈ segments_of NA, point_to_segment_distance nv sg.1 sg.2 < 7/2)) ∨
    (∃ ev ∈ NA, ∃ sg ∈ segments_of NB, point_to_segment_distance ev sg.1 sg.2 < 7/2) ∨
    (∃ s1 ∈ segments_of NB, ∃ s2 ∈ segments_of NA,
       check_inter s1.1 s1.2 s2.1 s2.2 (7/2)) := by
  have hbuf : eps ≤ 2 * (7/2 : ℝ) := by norm_num [eps]
  rcases h with ⟨nv, hnv, ⟨ev, hev, hd⟩ | ⟨sg, hsg, hd⟩⟩ | ⟨ev, hev, sg, hsg, hd⟩ |
      ⟨s1, hs1, s2, hs2, hci⟩
  · exact Or.inl ⟨ev, hev, Or.inl ⟨nv, hnv, by rwa [distance_comm]⟩⟩
  · exact Or.inr (Or.inl ⟨nv, hnv, sg, hsg, hd⟩)
  · exact Or.inl ⟨ev, hev, Or.inr ⟨sg, hsg, hd⟩⟩
  · exact Or.inr (Or.inr ⟨s2, hs2, s1, hs1,
      (check_inter_comm s1.1 s1.2 s2.1 s2.2 (7/2) hbuf).1 hci⟩)

/-- The per-entry overlap verdict is symmetric: checking placement `A`
against committed placement `B` agrees with checking `B` against `A`
(colors are irrelevant). -/
lemma overlapped_pair_comm (posA : Point) (coordsA : List Point)
    (posB : Point) (coordsB : List Point) (stretch : ℝ) (colA colB : String) :
    overlapped_pair posA coordsA stretch (posB, coordsB, colB) ↔
      overlapped_pair posB coordsB stretch (posA, coordsA, colA) := by
  unfold overlapped_pair
  refine or_congr (and_congr (boxes_not_disjoint_comm _ _) ?_) or_comm
  exact ⟨proximity_checks_swap _ _, proximity_checks_swap _ _⟩

/-- The placed-square template of the spec's boundary scenario:
`(0,0),(10,0),(10,10),(0,10)`. -/
def sq10 : List Point := [(0, 0), (10, 0), (10, 10), (0, 10)]

/-! ### C2 -/

lemma sqrt100 : Real.sqrt (100 : ℝ) = 10 := by
  rw [show (100 : ℝ) = 10 ^ 2 by norm_num]
  exact Real.sqrt_sq (by norm_num)

lemma expand_gap4 : expand_segment (14, 0) (24, 0) (7/2) = ((21/2, 0), (55/2, 0)) := by
  simp only [expand_segment]
  norm_num [sqrt100, eps]

lemma expand_bottom : expand_segment (0, 0) (10, 0) (7/2) = ((-7/2, 0), (27/2, 0)) := by
  simp only [expand_segment]
  norm_num [sqrt100, eps]

lemma gap4_ci : check_inter (14, 0) (24, 0) (0, 0) (10, 0) (7/2) := by
  simp only [check_inter, expand_gap4, expand_bottom]
  norm_num [pt_cross_with_points, pt_cross, pt_sub, inter1, min_def, max_def]

lemma gap4_gate :
    boxes_not_disjoint (get_bounding_box (stretch_coords (14, 0) sq10 1) (7/2))
      (get_bounding_box (stretch_coords (0, 0) sq10 1) (7/2)) := by
  norm_num [boxes_not_disjoint, get_bounding_box, stretch_coords, sq10, listMin, listMax,
    min_def, max_def]

lemma gap4_pair : overlapped_pair (14, 0) sq10 1 ((0, 0), sq10, "red") := by
  unfold overlapped_pair
  refine Or.inl ⟨gap4_gate, Or.inr (Or.inr ⟨((14, 0), (24, 0)), ?_, ((0, 0), (10, 0)), ?_, gap4_ci⟩)⟩
  · norm_num [segments_of, stretch_coords, sq10, List.range_succ, List.getD]
  · norm_num [segments_of, stretch_coords, sq10, List.range_succ, List.getD]

/-- Counterexample to C2 as stated: with the placed square
`(0,0),(10,0),(10,10),(0,10)` and buffer `3.5`, the candidate square at
anchor `(14, 0)` has its nearest edge at distance `4 = 3.5 + 0.5` (so
`ε = 0.5 > 0`), yet the oracle reports it as overlapping. -/
theorem C2_counterexample :
    (14 : ℝ) - 10 = 7/2 + 1/2 ∧
      is_shape_overlapped_any (14, 0) sq10 1 [((0, 0), sq10, "red")] :=
  ⟨by norm_num, (overlapped_any_singleton _ _ _ _).2 gap4_pair⟩

lemma expand_gap35 : expand_segment (27/2, 0) (47/2, 0) (7/2) = ((10, 0), (27, 0)) := by
  simp only [expand_segment]
  norm_num [sqrt100, eps]

lemma gap35_ci : check_inter (27/2, 0) (47/2, 0) (0, 0) (10, 0) (7/2) := by
  simp only [check_inter, expand_gap35, expand_bottom]
  norm_num [pt_cross_with_points, pt_cross, pt_sub, inter1, min_def, max_def]

lemma gap35_gate :
    boxes_not_disjoint (get_bounding_box (stretch_coords (27/2, 0) sq10 1) (7/2))
      (get_bounding_box (stretch_coords (0, 0) sq10 1) (7/2)) := by
  norm_num [boxes_not_disjoint, get_bounding_box, stretch_coords, sq10, listMin, listMax,
    min_def, max_def]

lemma gap35_pair : overlapped_pair (27/2, 0) sq10 1 ((0, 0), sq10, "red") := by
  unfold overlapped_pair
  refine Or.inl ⟨gap35_gate,
    Or.inr (Or.inr ⟨((27/2, 0), (47/2, 0)), ?_, ((0, 0), (10, 0)), ?_, gap35_ci⟩)⟩
  · norm_num [segments_of, stretch_coords, sq10, List.range_succ, List.getD]
  · norm_num [segments_of, stretch_coords, sq10, List.range_succ, List.getD]

/-- The candidate square anchored at `(20, 0)` (nearest-edge distance 10)
is not reported as overlapping: the buffered boxes are disjoint and
neither centroid is contained in the other square. -/
lemma far20_not_pair : ¬ overlapped_pair (20, 0) sq10 1 ((0, 0), sq10, "red") := by
  unfold overlapped_pair
  rintro (⟨hgate, -⟩ | hpip | hpip)
  · exact hgate (Or.inr (Or.inl (by
      norm_num [get_bounding_box, stretch_coords, sq10, listMax, listMin, min_def, max_def])))
  · revert hpip
    have hc : centroid (stretch_coords (20, 0) sq10 1) = (25, 5) := by
      simp [centroid, stretch_coords, sq10]
      norm_num
    rw [hc]
    have hs : stretch_coords (0, 0) sq10 1 = [(0, 0), (10, 0), (10, 10), (0, 10)] := by
      simp [stretch_coords, sq10]
    rw [hs]
    unfold point_in_polygon
    norm_num [List.range_succ, pip_cond, List.getD, eps]
  · revert hpip
    have hc : centroid (stretch_coords (0, 0) sq10 1) = (5, 5) := by
      simp [centroid, stretch_coords, sq10]
      norm_num
    rw [hc]
    have hs : stretch_coords (20, 0) sq10 1 = [(20, 0), (30, 0), (30, 10), (20, 10)] := by
      simp [stretch_coords, sq10]
      norm_num
    rw [hs]
    unfold point_in_polygon
    norm_num [List.range_succ, pip_cond, List.getD, eps]

/-- C2 amended: with the placed square `(0,0),(10,0),(10,10),(0,10)` and
buffer `3.5`, a candidate square whose nearest edge sits at distance
exactly `3.5` (anchor `(13.5, 0)`) is reported as overlapping, and a
candidate at distance `10` (anchor `(20, 0)`) is reported as not
overlapping; but acceptance does not extend to every distance
`3.5 + ε` — the colinear-edge interval test widens each interval by the
buffer, so such axis-aligned candidates stay rejected up to gap `7`. -/
theorem C2_amended :
    is_shape_overlapped_any (27/2, 0) sq10 1 [((0, 0), sq10, "red")] ∧
      ¬ is_shape_overlapped_any (20, 0) sq10 1 [((0, 0), sq10, "red")] :=
  ⟨(overlapped_any_singleton _ _ _ _).2 gap35_pair,
   fun h => far20_not_pair ((overlapped_any_singleton _ _ _ _).1 h)⟩

/-! ### C10 -/

/-- C10: `create_shape` ignores its `stretch_factor` argument: for every
coordinate list, color, and any two stretch factors `s1`, `s2`,
`create_shape coords color s1 = create_shape coords color s2 =
(coords, color)`; the scale is never recorded in the returned shape data. -/
theorem C10_create_shape_ignores_stretch (coords : List Point) (color : String)
    (s1 s2 : ℝ) :
    create_shape coords color s1 = create_shape coords color s2 ∧
      create_shape coords color s1 = (coords, color) :=
  ⟨rfl, rfl⟩

/-! ### C3 -/

/-- C3: containment is checked unconditionally: for every candidate
placement and every registry entry, if the candidate's centroid lies inside
the entry's unbuffered world-space polygon, or the entry's centroid lies
inside the candidate's polygon, then `is_shape_overlapped_any` returns
`True` — no hypothesis about the bounding boxes is needed, so the
broad-phase box test never suppresses the containment check. -/
theorem C3_containment_unconditional (pos : Point) (coords : List Point) (stretch : ℝ)
    (registry : List ShapeEntry) (entry : ShapeEntry) (hmem : entry ∈ registry)
    (hcont : point_in_polygon (centroid (stretch_coords pos coords stretch))
               (stretch_coords entry.1 entry.2.1 stretch) ∨
             point_in_polygon (centroid (stretch_coords entry.1 entry.2.1 stretch))
               (stretch_coords pos coords stretch)) :
    is_shape_overlapped_any pos coords stretch registry :=
  (overlapped_any_iff_exists pos coords stretch registry).2
    ⟨entry, hmem, overlapped_pair_of_containment pos coords stretch entry hcont⟩

/-- A 40×40 square template at the origin. -/
def sq40 : List Point := [(0, 0), (40, 0), (40, 40), (0, 40)]

/-- A small triangle template. -/
def tri2 : List Point := [(0, 0), (2, 0), (0, 2)]

lemma tri2_centroid_in_sq40 :
    point_in_polygon (centroid (stretch_coords (10, 10) tri2 1))
      (stretch_coords (0, 0) sq40 1) := by
  have hc : centroid (stretch_coords (10, 10) tri2 1) = (32/3, 32/3) := by
    simp [centroid, stretch_coords, tri2]
    norm_num
  rw [hc]
  show point_in_polygon (32/3, 32/3) (stretch_coords (0, 0) sq40 1)
  have hs : stretch_coords (0, 0) sq40 1 = [(0, 0), (40, 0), (40, 40), (0, 40)] := by
    simp [stretch_coords, sq40]
  rw [hs]
  unfold point_in_polygon
  norm_num [List.range_succ, pip_cond, List.getD, eps]

/-- Witness for C3: a small triangle placed strictly inside a large square
is reported as overlapping. -/
theorem C3_witness :
    is_shape_overlapped_any (10, 10) tri2 1 [((0, 0), sq40, "red")] :=
  C3_containment_unconditional (10, 10) tri2 1 [((0, 0), sq40, "red")]
    ((0, 0), sq40, "red") (by simp) (Or.inl tri2_centroid_in_sq40)

/-! ### C4 -/

/-- C4: overlap symmetry — for any two placements `A` and `B` built with
the same stretch (the buffer is the program's fixed `3.5`),
`is_shape_overlapped_any` with `A` as candidate against a registry holding
only `B` agrees with `is_shape_overlapped_any` with `B` as candidate
against a registry holding only `A`. -/
theorem C4_overlap_symmetric (posA posB : Point) (coordsA coordsB : List Point)
    (colA colB : String) (stretch : ℝ) :
    is_shape_overlapped_any posA coordsA stretch [(posB, coordsB, colB)] ↔
      is_shape_overlapped_any posB coordsB stretch [(posA, coordsA, colA)] := by
  rw [overlapped_any_singleton, overlapped_any_singleton]
  exact overlapped_pair_comm posA coordsA posB coordsB stretch colA colB

/-! ### C1 -/

/-- The states of the scene registry `g_shapes` reachable by the driver
loop with the run's fixed stretch: starting empty, an entry is appended
only after `is_shape_overlapped_any` returned `False` for it against all
current entries (`place_a_random_shape`, lines 236–256). -/
inductive Reachable (stretch : ℝ) : List ShapeEntry → Prop
  | nil : Reachable stretch []
  | append (l : List ShapeEntry) (pos : Point) (coords : List Point) (color : String) :
      Reachable stretch l → ¬ is_shape_overlapped_any pos coords stretch l →
      Reachable stretch (l ++ [(pos, coords, color)])

lemma not_overlapped_any_iff (pos : Point) (coords : List Point) (stretch : ℝ)
    (l : List ShapeEntry) :
    ¬ is_shape_overlapped_any pos coords stretch l ↔
      ∀ e ∈ l, ¬ overlapped_pair pos coords stretch e := by
  rw [overlapped_any_iff_exists]
  push_neg
  rfl

/-- C1: scene-registry no-overlap invariant — in every state of `g_shapes`
reachable by the driver loop, for every pair of distinct entries the
overlap oracle evaluates false when either entry is taken as the candidate
and the other as the lone committed shape. -/
theorem C1_registry_invariant (stretch : ℝ) (l : List ShapeEntry)
    (h : Reachable stretch l) (i j : ℕ) (hi : i < l.length) (hj : j < l.length)
    (hij : i ≠ j) :
    ¬ is_shape_overlapped_any (l.get ⟨i, hi⟩).1 (l.get ⟨i, hi⟩).2.1 stretch
        [l.get ⟨j, hj⟩] := by
  induction h with
  | nil => simp at hi
  | append l pos coords color hre hnot ih =>
    have hi2 : i < l.length + 1 := by simpa using hi
    have hj2 : j < l.length + 1 := by simpa using hj
    by_cases hi' : i < l.length <;> by_cases hj' : j < l.length
    · have hgi : (l ++ [(pos, coords, color)]).get ⟨i, hi⟩ = l.get ⟨i, hi'⟩ := by
        simp only [List.get_eq_getElem]
        exact List.getElem_append_left hi'
      have hgj : (l ++ [(pos, coords, color)]).get ⟨j, hj⟩ = l.get ⟨j, hj'⟩ := by
        simp only [List.get_eq_getElem]
        exact List.getElem_append_left hj'
      rw [hgi, hgj]
      exact ih hi' hj'
    · -- `j` is the freshly appended entry, `i` is an older one.
      have hj0 : j = l.length := by omega
      have hgj : (l ++ [(pos, coords, color)]).get ⟨j, hj⟩ = (pos, coords, color) := by
        subst hj0
        simp
      have hgi : (l ++ [(pos, coords, color)]).get ⟨i, hi⟩ = l.get ⟨i, hi'⟩ := by
        simp only [List.get_eq_getElem]
        exact List.getElem_append_left hi'
      rw [hgi, hgj, overlapped_any_singleton]
      intro hpair
      have hmem : l.get ⟨i, hi'⟩ ∈ l := List.get_mem l i hi'
      have hpair' : overlapped_pair pos coords stretch
          ((l.get ⟨i, hi'⟩).1, (l.get ⟨i, hi'⟩).2.1, (l.get ⟨i, hi'⟩).2.2) :=
        (overlapped_pair_comm _ _ _ _ stretch (l.get ⟨i, hi'⟩).2.2 color).1 hpair
      rw [not_overlapped_any_iff] at hnot
      exact hnot _ hmem (by simpa using hpair')
    · -- `i` is the freshly appended entry, `j` is an older one.
      have hi0 : i = l.length := by omega
      have hgi : (l ++ [(pos, coords, color)]).get ⟨i, hi⟩ = (pos, coords, color) := by
        subst hi0
        simp
      have hgj : (l ++ [(pos, coords, color)]).get ⟨j, hj⟩ = l.get ⟨j, hj'⟩ := by
        simp only [List.get_eq_getElem]
        exact List.getElem_append_left hj'
      rw [hgi, hgj, overlapped_any_singleton]
      rw [not_overlapped_any_iff] at hnot
      exact hnot _ (List.get_mem l j hj')
    · omega

/-- A square at the origin and the same square 100 units to the right do
not trigger the overlap oracle: their buffered boxes are disjoint and
neither centroid lies in the other polygon. -/
lemma far_not_pair : ¬ overlapped_pair (100, 0) sq10 1 ((0, 0), sq10, "red") := by
  unfold overlapped_pair
  rintro (⟨hgate, -⟩ | hpip | hpip)
  · exact hgate (Or.inr (Or.inl (by
      norm_num [get_bounding_box, stretch_coords, sq10, listMax, listMin, min_def, max_def])))
  · revert hpip
    have hc : centroid (stretch_coords (100, 0) sq10 1) = (105, 5) := by
      simp [centroid, stretch_coords, sq10]
      norm_num
    rw [hc]
    have hs : stretch_coords (0, 0) sq10 1 = [(0, 0), (10, 0), (10, 10), (0, 10)] := by
      simp [stretch_coords, sq10]
    rw [hs]
    unfold point_in_polygon
    norm_num [List.range_succ, pip_cond, List.getD, eps]
  · revert hpip
    have hc : centroid (stretch_coords (0, 0) sq10 1) = (5, 5) := by
      simp [centroid, stretch_coords, sq10]
      norm_num
    rw [hc]
    have hs : stretch_coords (100, 0) sq10 1 = [(100, 0), (110, 0), (110, 10), (100, 10)] := by
      simp [stretch_coords, sq10]
      norm_num
    rw [hs]
    unfold point_in_polygon
    norm_num [List.range_succ, pip_cond, List.getD, eps]

/-- A two-square registry reachable by the driver loop. -/
def demo_registry : List ShapeEntry := [((0, 0), sq10, "red"), ((100, 0), sq10, "blue")]

lemma demo_reachable : Reachable 1 demo_registry := by
  show Reachable 1 ([((0, 0), sq10, "red")] ++ [((100, 0), sq10, "blue")])
  exact Reachable.append [((0, 0), sq10, "red")] (100, 0) sq10 "blue"
    (Reachable.append [] (0, 0) sq10 "red" Reachable.nil (by simp [is_shape_overlapped_any]))
    (by rw [overlapped_any_singleton]; exact far_not_pair)

/-- Witness for C1: a concrete two-entry reachable registry on which the
invariant instance produced by the theorem evaluates. -/
theorem C1_witness :
    Reachable 1 demo_registry ∧
      ¬ is_shape_overlapped_any (100, 0) sq10 1 [((0, 0), sq10, "red")] := by
  refine ⟨demo_reachable, ?_⟩
  have h := C1_registry_invariant 1 demo_registry demo_reachable 1 0
    (by norm_num [demo_registry]) (by norm_num [demo_registry]) (by norm_num)
  simpa [demo_registry] using h

/-! ### C5 -/

/-- The attempt ceiling `max_attempts = 10000` of `place_a_random_shape`. -/
def max_attempts : ℕ := 10000

/-- The `for _ in range(max_attempts)` loop of `place_a_random_shape`,
with the wall clock and the random anchors supplied as explicit streams:
`times k` is the value of `time.time()` observed at the start of attempt
`k` and `anchors k` the anchor sampled by `get_random_home_position` at
attempt `k`.  `place_loop … k fuel` is the proposition that the loop
starting at attempt `k` with `fuel` remaining attempts returns `True`
(drawing and the registry append performed on success are external
effects and do not affect the returned value). -/
noncomputable def place_loop (times : ℕ → ℝ) (anchors : ℕ → Point) (started duration : ℝ)
    (coords : List Point) (stretch : ℝ) (registry : List ShapeEntry) : ℕ → ℕ → Prop
  | _, 0 => False
  | k, fuel + 1 =>
      if times k - started > duration then False
      else if is_shape_overlapped_any (anchors k) coords stretch registry then
        place_loop times anchors started duration coords stretch registry (k + 1) fuel
      else True

/-- `place_a_random_shape(shape_data, stretch, started, duration)` returns
`True`: run the attempt loop from attempt `0` with the full ceiling. -/
noncomputable def place_a_random_shape (shape_data : List Point × String) (stretch : ℝ)
    (times : ℕ → ℝ) (anchors : ℕ → Point) (started duration : ℝ)
    (registry : List ShapeEntry) : Prop :=
  place_loop times anchors started duration shape_data.1 stretch registry 0 max_attempts

lemma place_loop_succ (times : ℕ → ℝ) (anchors : ℕ → Point) (started duration : ℝ)
    (coords : List Point) (stretch : ℝ) (registry : List ShapeEntry) (k fuel : ℕ) :
    place_loop times anchors started duration coords stretch registry k (fuel + 1) =
      if times k - started > duration then False
      else if is_shape_overlapped_any (anchors k) coords stretch registry then
        place_loop times anchors started duration coords stretch registry (k + 1) fuel
      else True := rfl

/-- If the loop returns `True`, some attempt within the fuel bound was
checked before the deadline and found non-overlapping. -/
lemma place_loop_success (times : ℕ → ℝ) (anchors : ℕ → Point) (started duration : ℝ)
    (coords : List Point) (stretch : ℝ) (registry : List ShapeEntry) :
    ∀ fuel k, place_loop times anchors started duration coords stretch registry k fuel →
      ∃ m, k ≤ m ∧ m < k + fuel ∧ ¬ (times m - started > duration) ∧
        ¬ is_shape_overlapped_any (anchors m) coords stretch registry := by
  intro fuel
  induction fuel with
  | zero => intro k h; exact absurd h (by simp [place_loop])
  | succ fuel ih =>
    intro k h
    rw [place_loop_succ] at h
    by_cases hd : times k - started > duration
    · rw [if_pos hd] at h
      exact absurd h not_false
    · rw [if_neg hd] at h
      by_cases ho : is_shape_overlapped_any (anchors k) coords stretch registry
      · rw [if_pos ho] at h
        obtain ⟨m, hm1, hm2, hm3⟩ := ih (k + 1) h
        exact ⟨m, by omega, by omega, hm3⟩
      · exact ⟨k, le_refl k, by omega, hd, ho⟩

/-- C5: the placement search is bounded — the attempt loop of
`place_a_random_shape` is structurally bounded by `max_attempts = 10000`
iterations (it is defined by recursion on that fuel, so it never loops
indefinitely), and: (1) it can only return `True` when some attempt
`k < 10000` observed the deadline not yet passed (elapsed time checked at
the start of that attempt) and a non-overlapping candidate; (2) on a
canvas where every sampled candidate is rejected it returns `False`; (3)
if the deadline has already passed at the first attempt it returns
`False`. -/
theorem C5_placement_bounded (times : ℕ → ℝ) (anchors : ℕ → Point) (started duration : ℝ)
    (coords : List Point) (color : String) (stretch : ℝ) (registry : List ShapeEntry) :
    (place_a_random_shape (coords, color) stretch times anchors started duration registry →
      ∃ k < max_attempts, ¬ (times k - started > duration) ∧
        ¬ is_shape_overlapped_any (anchors k) coords stretch registry) ∧
    ((∀ k < max_attempts, is_shape_overlapped_any (anchors k) coords stretch registry) →
      ¬ place_a_random_shape (coords, color) stretch times anchors started duration registry) ∧
    (times 0 - started > duration →
      ¬ place_a_random_shape (coords, color) stretch times anchors started duration registry) := by
  refine ⟨?_, ?_, ?_⟩
  · intro h
    obtain ⟨m, -, hm2, hm3, hm4⟩ :=
      place_loop_success times anchors started duration coords stretch registry max_attempts 0 h
    exact ⟨m, by omega, hm3, hm4⟩
  · intro hall h
    obtain ⟨m, -, hm2, -, hm4⟩ :=
      place_loop_success times anchors started duration coords stretch registry max_attempts 0 h
    exact hm4 (hall m (by omega))
  · intro hd h
    have h' := h
    rw [place_a_random_shape, show max_attempts = 9999 + 1 from rfl, place_loop_succ,
      if_pos hd] at h'
    exact h'

/-- A shape placed exactly on top of an identical committed shape
triggers the oracle (its centroid lies inside the committed polygon). -/
lemma same_pos_pair : overlapped_pair (0, 0) sq10 1 ((0, 0), sq10, "red") := by
  unfold overlapped_pair
  refine Or.inr (Or.inl ?_)
  have hc : centroid (stretch_coords (0, 0) sq10 1) = (5, 5) := by
    simp [centroid, stretch_coords, sq10]
    norm_num
  rw [hc]
  have hs : stretch_coords (0, 0) sq10 1 = [(0, 0), (10, 0), (10, 10), (0, 10)] := by
    simp [stretch_coords, sq10]
  rw [hs]
  unfold point_in_polygon
  norm_num [List.range_succ, pip_cond, List.getD, eps]

/-- Witness for C5: on a registry where every sampled anchor collides with
the committed square, the search returns a rejection. -/
theorem C5_witness :
    (∀ k < max_attempts,
      is_shape_overlapped_any ((fun _ => ((0 : ℝ), (0 : ℝ))) k) sq10 1
        [((0, 0), sq10, "red")]) ∧
    ¬ place_a_random_shape (sq10, "red") 1 (fun _ => 0) (fun _ => (0, 0)) 0 5
        [((0, 0), sq10, "red")] := by
  have hall : ∀ k < max_attempts,
      is_shape_overlapped_any ((fun _ => ((0 : ℝ), (0 : ℝ))) k) sq10 1
        [((0, 0), sq10, "red")] :=
    fun _ _ => (overlapped_any_singleton _ _ _ _).2 same_pos_pair
  exact ⟨hall,
    (C5_placement_bounded (fun _ => 0) (fun _ => (0, 0)) 0 5 sq10 "red" 1
      [((0, 0), sq10, "red")]).2.1 hall⟩

/-! ### C6 -/

/-- `setup_canvas_ranges(w, h, span, step)`: `sz_w, sz_h = w/2*span,
h/2*span`, returning `([-sz_w, sz_w], [-sz_h, sz_h])`; the `step`
argument is unused by the function body. -/
noncomputable def setup_canvas_ranges (w h span _step : ℝ) : List ℝ × List ℝ :=
  ([-(w / 2 * span), w / 2 * span], [-(h / 2 * span), h / 2 * span])

/-- The set of anchors `get_random_home_position(range_x, range_y)` can
return: `random.uniform(lo, hi)` yields a value between its arguments,
here `min(range_x) + 50` and `max(range_x) - 50` on the x axis and
likewise on the y axis; the randomness is modelled by this
possible-output predicate. -/
noncomputable def get_random_home_position_range (range_x range_y : List ℝ) (p : Point) :
    Prop :=
  listMin range_x + 50 ≤ p.1 ∧ p.1 ≤ listMax range_x - 50 ∧
  listMin range_y + 50 ≤ p.2 ∧ p.2 ≤ listMax range_y - 50

/-- A point lies within the canvas bounds described by the two ranges. -/
noncomputable def in_canvas (range_x range_y : List ℝ) (p : Point) : Prop :=
  listMin range_x ≤ p.1 ∧ p.1 ≤ listMax range_x ∧
  listMin range_y ≤ p.2 ∧ p.2 ≤ listMax range_y

/-- Counterexample to C6 as stated: with a 500×500 window (canvas ranges
`[-200, 200]`), the permitted stretch `10`, and the outline
`[(0,0),(6,0),(0,6)]`, the anchor `(150, 0)` lies in the sampling domain
(inset by the fixed margin `50`), yet the world-space vertex
`(6*10+150, 0) = (210, 0)` falls outside the canvas bounds. -/
theorem C6_counterexample :
    get_random_home_position_range (setup_canvas_ranges 500 500 (8/10) 10).1
      (setup_canvas_ranges 500 500 (8/10) 10).2 (150, 0) ∧
    (1 : ℝ) ≤ 10 ∧ (10 : ℝ) ≤ 10 ∧
    ∃ v ∈ stretch_coords (150, 0) [(0, 0), (6, 0), (0, 6)] 10,
      ¬ in_canvas (setup_canvas_ranges 500 500 (8/10) 10).1
          (setup_canvas_ranges 500 500 (8/10) 10).2 v := by
  refine ⟨?_, by norm_num, by norm_num, ((210 : ℝ), (0 : ℝ)), ?_, ?_⟩
  · norm_num [get_random_home_position_range, setup_canvas_ranges, listMin, listMax,
      min_def, max_def]
  · norm_num [stretch_coords]
  · norm_num [in_canvas, setup_canvas_ranges, listMin, listMax, min_def, max_def]

/-- C6 amended: sampled anchors keep shapes fully visible *provided* the
scaled outline fits in the fixed margin — if every outline coordinate
satisfies `|c| * stretch ≤ 50` on each axis, then for every anchor
`get_random_home_position` can return, all world-space vertices
`anchor + stretch * c` lie within the canvas bounds. -/
theorem C6_amended (w h span step stretch : ℝ) (coords : List Point) (anchor : Point)
    (hw : 0 ≤ w) (hh : 0 ≤ h) (hspan : 0 ≤ span) (hstretch : 0 ≤ stretch)
    (hsmall : ∀ c ∈ coords, |c.1| * stretch ≤ 50 ∧ |c.2| * stretch ≤ 50)
    (hanchor : get_random_home_position_range (setup_canvas_ranges w h span step).1
      (setup_canvas_ranges w h span step).2 anchor) :
    ∀ v ∈ stretch_coords anchor coords stretch,
      in_canvas (setup_canvas_ranges w h span step).1
        (setup_canvas_ranges w h span step).2 v := by
  intro v hv
  obtain ⟨c, hc, rfl⟩ := List.mem_map.1 hv
  obtain ⟨h1, h2⟩ := hsmall c hc
  have hsw : 0 ≤ w / 2 * span := by positivity
  have hsh : 0 ≤ h / 2 * span := by positivity
  have hx : (setup_canvas_ranges w h span step).1 = [-(w / 2 * span), w / 2 * span] := rfl
  have hy : (setup_canvas_ranges w h span step).2 = [-(h / 2 * span), h / 2 * span] := rfl
  have hminx : listMin [-(w / 2 * span), w / 2 * span] = -(w / 2 * span) := by
    simp only [listMin, List.foldl]
    exact min_eq_left (by linarith)
  have hmaxx : listMax [-(w / 2 * span), w / 2 * span] = w / 2 * span := by
    simp only [listMax, List.foldl]
    exact max_eq_right (by linarith)
  have hminy : listMin [-(h / 2 * span), h / 2 * span] = -(h / 2 * span) := by
    simp only [listMin, List.foldl]
    exact min_eq_left (by linarith)
  have hmaxy : listMax [-(h / 2 * span), h / 2 * span] = h / 2 * span := by
    simp only [listMax, List.foldl]
    exact max_eq_right (by linarith)
  unfold get_random_home_position_range at hanchor
  unfold in_canvas
  rw [hx, hy] at hanchor ⊢
  obtain ⟨ha1, ha2, ha3, ha4⟩ := hanchor
  rw [hminx] at ha1
  rw [hmaxx] at ha2
  rw [hminy] at ha3
  rw [hmaxy] at ha4
  have hb1 : c.1 * stretch ≤ 50 := by
    calc c.1 * stretch ≤ |c.1 * stretch| := le_abs_self _
      _ = |c.1| * stretch := by rw [abs_mul, abs_of_nonneg hstretch]
      _ ≤ 50 := h1
  have hb1' : -50 ≤ c.1 * stretch := by
    have := neg_abs_le (c.1 * stretch)
    have heq : |c.1 * stretch| = |c.1| * stretch := by rw [abs_mul, abs_of_nonneg hstretch]
    linarith [heq ▸ this]
  have hb2 : c.2 * stretch ≤ 50 := by
    calc c.2 * stretch ≤ |c.2 * stretch| := le_abs_self _
      _ = |c.2| * stretch := by rw [abs_mul, abs_of_nonneg hstretch]
      _ ≤ 50 := h2
  have hb2' : -50 ≤ c.2 * stretch := by
    have := neg_abs_le (c.2 * stretch)
    have heq : |c.2 * stretch| = |c.2| * stretch := by rw [abs_mul, abs_of_nonneg hstretch]
    linarith [heq ▸ this]
  refine ⟨?_, ?_, ?_, ?_⟩
  · rw [hminx]; dsimp only; linarith
  · rw [hmaxx]; dsimp only; linarith
  · rw [hminy]; dsimp only; linarith
  · rw [hmaxy]; dsimp only; linarith

/-- Witness for C6 amended: an outline with `|c| * stretch` exactly at the
margin stays fully on canvas from a domain-boundary anchor. -/
theorem C6_witness :
    (∀ c ∈ ([(0, 0), (5, 0), (0, 5)] : List Point), |c.1| * 10 ≤ 50 ∧ |c.2| * 10 ≤ 50) ∧
    ∀ v ∈ stretch_coords (150, 0) [(0, 0), (5, 0), (0, 5)] 10,
      in_canvas (setup_canvas_ranges 500 500 (8/10) 10).1
        (setup_canvas_ranges 500 500 (8/10) 10).2 v := by
  have h1 : ∀ c ∈ ([(0, 0), (5, 0), (0, 5)] : List Point),
      |c.1| * 10 ≤ 50 ∧ |c.2| * 10 ≤ 50 := by
    intro c hc
    fin_cases hc <;> norm_num
  have h2 : get_random_home_position_range (setup_canvas_ranges 500 500 (8/10) 10).1
      (setup_canvas_ranges 500 500 (8/10) 10).2 (150, 0) := by
    norm_num [get_random_home_position_range, setup_canvas_ranges, listMin, listMax,
      min_def, max_def]
  exact ⟨h1, C6_amended 500 500 (8/10) 10 10 [(0, 0), (5, 0), (0, 5)] (150, 0)
    (by norm_num) (by norm_num) (by norm_num) (by norm_num) h1 h2⟩

/-! ### C8 -/

/-- Division safety of `point_in_polygon`: the division
`(xj - xi) * (y - yi) / (yj - yi + 1e-10)` at index `i` is evaluated
exactly when the first (short-circuited) conjunct
`(yi > y) != (yj > y)` holds; this predicate states that every division
actually evaluated has a nonzero denominator. -/
def pip_div_safe (point : Point) (polygon : List Point) : Prop :=
  ∀ i < polygon.length,
    (¬ (((polygon.getD i (0, 0)).2 > point.2) ↔
        ((polygon.getD ((i + polygon.length - 1) % polygon.length) (0, 0)).2 > point.2))) →
    (polygon.getD ((i + polygon.length - 1) % polygon.length) (0, 0)).2 -
        (polygon.getD i (0, 0)).2 + eps ≠ 0

/-- Division safety of `expand_segment`: it divides only by `length`, and
only in the branch where `length < 1e-10` failed. -/
def expand_segment_div_safe (start finish : Point) : Prop :=
  Real.sqrt ((finish.1 - start.1) ^ 2 + (finish.2 - start.2) ^ 2) < eps ∨
  Real.sqrt ((finish.1 - start.1) ^ 2 + (finish.2 - start.2) ^ 2) ≠ 0

/-- Division safety of `point_to_segment_distance`: it divides only by
`length_squared`, and only in the branch where `length_squared < 1e-10`
failed. -/
def point_to_segment_distance_div_safe (seg_start seg_end : Point) : Prop :=
  (seg_end.1 - seg_start.1) ^ 2 + (seg_end.2 - seg_start.2) ^ 2 < eps ∨
  (seg_end.1 - seg_start.1) ^ 2 + (seg_end.2 - seg_start.2) ^ 2 ≠ 0

/-- Counterexample to C8 as stated: `point_in_polygon`'s epsilon guard can
itself produce a zero denominator — on the polygon
`[(0,0), (1, 1e-10), (0,1)]` and query point `(0,0)`, the edge from
`(0,0)` to `(1, 1e-10)` straddles the ray (so the division is evaluated)
and its denominator `0 - 1e-10 + 1e-10` is exactly zero. -/
theorem C8_counterexample : ¬ pip_div_safe (0, 0) [(0, 0), (1, eps), (0, 1)] := by
  unfold pip_div_safe
  push_neg
  refine ⟨1, by norm_num, ?_, ?_⟩
  · norm_num [List.getD]
    exact eps_pos
  · norm_num [List.getD]

/-- C8 amended: `expand_segment` and `point_to_segment_distance` never
divide by zero (their guards ensure the divisor is at least `1e-10`
whenever it is used), and the degenerate-segment branch of
`expand_segment` returns the small buffered region around the endpoints;
`point_in_polygon` never divides by zero *provided* no edge satisfies
`yj - yi = -1e-10` exactly (the sole knife-edge the `+1e-10` guard cannot
absorb; in particular all horizontal edges, `yj = yi`, are safe). -/
theorem C8_amended :
    (∀ start finish : Point, expand_segment_div_safe start finish) ∧
    (∀ seg_start seg_end : Point, point_to_segment_distance_div_safe seg_start seg_end) ∧
    (∀ start finish : Point, ∀ buffer : ℝ,
      Real.sqrt ((finish.1 - start.1) ^ 2 + (finish.2 - start.2) ^ 2) < eps →
      expand_segment start finish buffer =
        ((start.1 - buffer, start.2 - buffer), (finish.1 + buffer, finish.2 + buffer))) ∧
    (∀ point : Point, ∀ polygon : List Point,
      (∀ i < polygon.length,
        (polygon.getD ((i + polygon.length - 1) % polygon.length) (0, 0)).2 -
          (polygon.getD i (0, 0)).2 ≠ -eps) →
      pip_div_safe point polygon) := by
  refine ⟨?_, ?_, ?_, ?_⟩
  · intro start finish
    unfold expand_segment_div_safe
    by_cases h : Real.sqrt ((finish.1 - start.1) ^ 2 + (finish.2 - start.2) ^ 2) < eps
    · exact Or.inl h
    · push_neg at h
      exact Or.inr (ne_of_gt (lt_of_lt_of_le eps_pos h))
  · intro seg_start seg_end
    unfold point_to_segment_distance_div_safe
    by_cases h : (seg_end.1 - seg_start.1) ^ 2 + (seg_end.2 - seg_start.2) ^ 2 < eps
    · exact Or.inl h
    · push_neg at h
      exact Or.inr (ne_of_gt (lt_of_lt_of_le eps_pos h))
  · intro start finish buffer h
    simp only [expand_segment]
    rw [if_pos h]
  · intro point polygon hno i hi hstraddle h0
    exact hno i hi (by linarith)

/-- Witness for C8 amended: on the square `sq10` no edge hits the
knife-edge, so `point_in_polygon` is division-safe there. -/
theorem C8_witness :
    (∀ i < sq10.length,
      (sq10.getD ((i + sq10.length - 1) % sq10.length) (0, 0)).2 -
        (sq10.getD i (0, 0)).2 ≠ -eps) ∧
    pip_div_safe (5, 5) sq10 := by
  have hno : ∀ i < sq10.length,
      (sq10.getD ((i + sq10.length - 1) % sq10.length) (0, 0)).2 -
        (sq10.getD i (0, 0)).2 ≠ -eps := by
    intro i hi
    simp only [sq10, List.length_cons, List.length_nil] at hi
    interval_cases i <;> norm_num [sq10, List.getD, eps]
  exact ⟨hno, C8_amended.2.2.2 (5, 5) sq10 hno⟩

/-! ### C9 -/

/-- The segment-intersection predicate exactly as the spec's sentence
describes it (for comparison with the source's `check_inter`): branch on
*all* the relevant orientations of the buffer-expanded endpoints being
zero — `(a,b,c)`, `(a,b,d)`, `(c,d,a)`, `(c,d,b)` — with the colinear
case the conjunction of the per-axis interval tests (each widened by the
buffer) and the general case the two sign-disagreement tests. -/
noncomputable def check_inter_spec (a b c d : Point) (buffer : ℝ) : Prop :=
  let ab := expand_segment a b buffer
  let cd := expand_segment c d buffer
  if pt_cross_with_points ab.1 ab.2 cd.1 = 0 ∧ pt_cross_with_points ab.1 ab.2 cd.2 = 0 ∧
     pt_cross_with_points cd.1 cd.2 ab.1 = 0 ∧ pt_cross_with_points cd.1 cd.2 ab.2 = 0 then
    inter1 a.1 b.1 c.1 d.1 buffer ∧ inter1 a.2 b.2 c.2 d.2 buffer
  else
    sgn (pt_cross_with_points ab.1 ab.2 cd.1) ≠ sgn (pt_cross_with_points ab.1 ab.2 cd.2) ∧
    sgn (pt_cross_with_points cd.1 cd.2 ab.1) ≠ sgn (pt_cross_with_points cd.1 cd.2 ab.2)

lemma pt_cross_with_points_swap (p a b : Point) :
    pt_cross_with_points p a b = -pt_cross_with_points p b a := by
  unfold pt_cross_with_points pt_cross pt_sub
  ring

lemma expand_degenerate_zero : expand_segment (1, 0) (1, 0) 0 = ((1, 0), (1, 0)) := by
  simp only [expand_segment]
  norm_num [Real.sqrt_zero, eps]

lemma expand_diag_zero : expand_segment (0, 0) (2, 2) 0 = ((0, 0), (2, 2)) := by
  have hnot : ¬ (Real.sqrt 8 < eps) := by
    have h1 : (1 : ℝ) ≤ Real.sqrt 8 := by
      rw [show (1 : ℝ) = Real.sqrt 1 from Real.sqrt_one.symm]
      exact Real.sqrt_le_sqrt (by norm_num)
    have h2 : eps ≤ 1 := by norm_num [eps]
    push_neg
    linarith
  simp only [expand_segment]
  norm_num [hnot]

/-- Counterexample to C9 as stated: at `buffer = 0` with the degenerate
segment `c = d = (1,0)` and the segment `(0,0)–(2,2)`, the source's
`check_inter` takes its colinear branch (the two orientations it tests
are trivially zero against a degenerate expanded segment) and returns
`True`, while the branch condition described by the spec — *all* the
relevant orientations zero — fails, sending `check_inter_spec` to the
general case, which returns `False`. -/
theorem C9_counterexample :
    check_inter (0, 0) (2, 2) (1, 0) (1, 0) 0 ∧
      ¬ check_inter_spec (0, 0) (2, 2) (1, 0) (1, 0) 0 := by
  constructor
  · simp only [check_inter, expand_diag_zero, expand_degenerate_zero]
    norm_num [pt_cross_with_points, pt_cross, pt_sub, inter1, min_def, max_def]
  · simp only [check_inter_spec, expand_diag_zero, expand_degenerate_zero]
    norm_num [pt_cross_with_points, pt_cross, pt_sub, sgn]

/-- C9 amended: the structural description holds for every buffer large
enough that expanded segments cannot degenerate (`1e-10 ≤ 2·buffer`, in
particular the program's fixed `3.5`): `check_inter` equals the
spec-described predicate that branches on all relevant orientations
being zero. -/
theorem C9_amended (a b c d : Point) (buffer : ℝ) (hbuf : eps ≤ 2 * buffer) :
    check_inter a b c d buffer ↔ check_inter_spec a b c d buffer := by
  have hab := expand_segment_ne a b buffer hbuf
  have hcd := expand_segment_ne c d buffer hbuf
  simp only [check_inter, check_inter_spec]
  set AB := expand_segment a b buffer with hAB
  set CD := expand_segment c d buffer with hCD
  have hcode_iff_spec :
      (pt_cross_with_points CD.1 AB.1 CD.2 = 0 ∧ pt_cross_with_points CD.1 AB.2 CD.2 = 0) ↔
      (pt_cross_with_points AB.1 AB.2 CD.1 = 0 ∧ pt_cross_with_points AB.1 AB.2 CD.2 = 0 ∧
       pt_cross_with_points CD.1 CD.2 AB.1 = 0 ∧ pt_cross_with_points CD.1 CD.2 AB.2 = 0) := by
    constructor
    · intro h
      obtain ⟨h1, h2⟩ := colinear_cond_swap hcd h
      refine ⟨?_, ?_, ?_, ?_⟩
      · rw [pt_cross_with_points_swap, h1, neg_zero]
      · rw [pt_cross_with_points_swap, h2, neg_zero]
      · rw [pt_cross_with_points_swap, h.1, neg_zero]
      · rw [pt_cross_with_points_swap, h.2, neg_zero]
    · intro h
      refine ⟨?_, ?_⟩
      · rw [pt_cross_with_points_swap, h.2.2.1, neg_zero]
      · rw [pt_cross_with_points_swap, h.2.2.2, neg_zero]
  by_cases h : pt_cross_with_points CD.1 AB.1 CD.2 = 0 ∧ pt_cross_with_points CD.1 AB.2 CD.2 = 0
  · rw [if_pos h, if_pos (hcode_iff_spec.1 h)]
  · rw [if_neg h, if_neg (fun hs => h (hcode_iff_spec.2 hs))]

/-- Witness for C9 amended: at the program's buffer `3.5` the equivalence
holds on a concrete pair of segments. -/
theorem C9_witness :
    eps ≤ 2 * (7/2 : ℝ) ∧
      (check_inter (0, 0) (10, 0) (20, 5) (30, 5) (7/2) ↔
        check_inter_spec (0, 0) (10, 0) (20, 5) (30, 5) (7/2)) :=
  ⟨by norm_num [eps], C9_amended (0, 0) (10, 0) (20, 5) (30, 5) (7/2) (by norm_num [eps])⟩

/-! ### C7

`import_custom_shapes` is modelled over the list of lines of the file
(file access is I/O); names and coordinate text are `List Char`,
coordinates parse to exact rationals.  Python's `str.strip` is modelled
with `Char.isWhitespace`, and `float()` is modelled on the plain decimal
literals of the catalogue format `name: (x1,y1),(x2,y2),...` (optional
sign, digits, optional fraction dot; exponents/inf/nan are not used by
that format). -/

/-- `str.strip()` from the left. -/
def lstrip (s : List Char) : List Char := s.dropWhile Char.isWhitespace

/-- `str.strip()` from the right. -/
def rstrip (s : List Char) : List Char := (s.reverse.dropWhile Char.isWhitespace).reverse

/-- `str.strip()`. -/
def strip (s : List Char) : List Char := rstrip (lstrip s)

/-- `line.split(':', 1)`: the text before the first `sep` and the text
after it (the whole line and `[]` when `sep` does not occur; the caller
guards on `':' in line`). -/
def splitFirst (sep : Char) (s : List Char) : List Char × List Char :=
  (s.takeWhile (fun c => c != sep), (s.dropWhile (fun c => c != sep)).drop 1)

/-- `coords_str.split('),')`: split on every (leftmost, non-overlapping)
occurrence of the two-character separator `),`. -/
def splitParenComma : List Char → List (List Char)
  | [] => [[]]
  | ')' :: ',' :: rest => [] :: splitParenComma rest
  | c :: rest =>
      match splitParenComma rest with
      | [] => [[c]]
      | h :: t => (c :: h) :: t

/-- `pair.split(',')`: split on every comma. -/
def splitComma : List Char → List (List Char)
  | [] => [[]]
  | ',' :: rest => [] :: splitComma rest
  | c :: rest =>
      match splitComma rest with
      | [] => [[c]]
      | h :: t => (c :: h) :: t

/-- `s.startswith(c)` for a one-character prefix. -/
def startsWithChar (c : Char) (s : List Char) : Bool :=
  match s with
  | [] => false
  | x :: _ => x = c

/-- `s.endswith(c)` for a one-character suffix. -/
def endsWithChar (c : Char) (s : List Char) : Bool :=
  match s.getLast? with
  | some x => x = c
  | none => false

/-- The natural number denoted by a digit string. -/
def digitsToNat (ds : List Char) : ℕ :=
  ds.foldl (fun n c => 10 * n + (c.toNat - '0'.toNat)) 0

/-- Model of Python's `float()` on the plain decimal literals of the
catalogue format: surrounding whitespace, an optional sign, digits with
an optional single dot; `none` models the `ValueError` caught by the
loader. -/
def pyFloat? (s : List Char) : Option ℚ :=
  let t := strip s
  let (sign, t') : ℚ × List Char :=
    match t with
    | '-' :: r => (-1, r)
    | '+' :: r => (1, r)
    | r => (1, r)
  let intPart := t'.takeWhile Char.isDigit
  let rest := t'.dropWhile Char.isDigit
  match rest with
  | [] => if intPart.isEmpty then none else some (sign * digitsToNat intPart)
  | '.' :: frac =>
      if frac.all Char.isDigit && !(intPart.isEmpty && frac.isEmpty) then
        some (sign * ((digitsToNat intPart : ℚ) + digitsToNat frac / 10 ^ frac.length))
      else none
  | _ => none

/-- One `pair` of the inner loop of `import_custom_shapes`: strip, drop a
leading `(` and a trailing `)`, split on commas, and require exactly two
`float()`-parsable parts; `none` models the caught `ValueError`. -/
def parsePair (pair : List Char) : Option (ℚ × ℚ) :=
  let p1 := strip pair
  let p2 := if startsWithChar '(' p1 then p1.tail else p1
  let p3 := if endsWithChar ')' p2 then p2.dropLast else p2
  match splitComma p3 with
  | [xs, ys] =>
      match pyFloat? xs, pyFloat? ys with
      | some x, some y => some (x, y)
      | _, _ => none
  | _ => none

/-- The shapes dictionary: insertion-ordered association list. -/
abbrev ShapeDict : Type := List (List Char × List (ℚ × ℚ))

/-- `shapes[name] = coords`: overwrite in place or append. -/
def dictSet (k : List Char) (v : List (ℚ × ℚ)) : ShapeDict → ShapeDict
  | [] => [(k, v)]
  | (k', v') :: rest => if k' = k then (k, v) :: rest else (k', v') :: dictSet k v rest

/-- The coordinates parsed from the part of a (stripped) line after the
first colon: strip it, peel a surrounding `(`…`)` pair, split on `),`,
and collect the pairs that parse (failing pairs are skipped one by
one). -/
def parse_line_coords (l : List Char) : List (ℚ × ℚ) :=
  let cstr0 := strip (splitFirst ':' l).2
  let cstr := if startsWithChar '(' cstr0 && endsWithChar ')' cstr0 then
      cstr0.tail.dropLast else cstr0
  (splitParenComma cstr).filterMap parsePair

/-- The body of the `for line in file` loop of `import_custom_shapes`:
skip the line if (after stripping) it is empty or has no colon, parse its
coordinate pairs, drop the name if no pair parsed, otherwise store
`shapes[name] = coords`. -/
def process_line (shapes : ShapeDict) (line : List Char) : ShapeDict :=
  let l := strip line
  if l = [] ∨ ¬ (':' ∈ l) then shapes
  else
    let coords := parse_line_coords l
    if coords = [] then shapes
    else dictSet (strip (splitFirst ':' l).1) coords shapes

/-- `import_custom_shapes(file_name)` on the file's list of lines (the
`FileNotFoundError` path and the empty-result `exit(1)` are I/O). -/
def import_custom_shapes (lines : List (List Char)) : ShapeDict :=
  lines.foldl process_line []

/-- C7: catalogue load robustness — a line without a colon is skipped and
leaves the dictionary unchanged; a coordinate pair that fails to parse is
skipped individually without affecting the other pairs; a line whose
pairs all fail to parse is dropped entirely; and a file with one
well-formed line and one malformed line yields exactly the well-formed
entry with its parsed coordinates. -/
theorem C7_loader_robust :
    (∀ (shapes : ShapeDict) (line : List Char),
        ¬ (':' ∈ strip line) → process_line shapes line = shapes) ∧
    (∀ (pair : List Char) (rest : List (List Char)), parsePair pair = none →
        (pair :: rest).filterMap parsePair = rest.filterMap parsePair) ∧
    (∀ (shapes : ShapeDict) (line : List Char),
        parse_line_coords (strip line) = [] → process_line shapes line = shapes) ∧
    import_custom_shapes
        ["square: (0,0),(10,0),(10,10),(0,10)".data, "garbage line".data] =
      [("square".data, [((0 : ℚ), (0 : ℚ)), (10, 0), (10, 10), (0, 10)])] := by
  refine ⟨?_, ?_, ?_, ?_⟩
  · intro shapes line h
    simp only [process_line]
    rw [if_pos (Or.inr h)]
  · intro pair rest h
    simp [List.filterMap_cons, h]
  · intro shapes line h
    simp only [process_line]
    by_cases h0 : strip line = [] ∨ ¬ (':' ∈ strip line)
    · rw [if_pos h0]
    · rw [if_neg h0, if_pos h]
  · with_unfolding_all rfl

/-- Witness for C7: the malformed line leaves an empty dictionary
unchanged. -/
theorem C7_witness :
    ¬ (':' ∈ strip "garbage line".data) ∧
      process_line [] "garbage line".data = [] :=
  ⟨by decide, C7_loader_robust.1 [] "garbage line".data (by decide)⟩

end Assignment2
